import Mathlib

/-!
Formalisation of the core of `parse_spreadsheets.py` from the
`eshwen/ons-cpi-microdata` repository.

The development shallowly embeds the two non-trivial transforms of the script:

* `parse_df` / `column_to_str_index_mapping` — fixed-width field extraction
  (`DataframeParser.parse_df`): each record string is sliced by the static
  offset table and each slice is stripped of surrounding whitespace.
* `run_shop_code_transition` and its helper steps
  (`item_key_col`, `_drop_duplicates_on_character_len`, `_cast_columns`,
  `_map_shop_codes`, `_backfill_unmatched_values`) — shop-code reconciliation
  against an external transition table.
* `find_files` / `strptime_Ym` — date-range selection of candidate file stems,
  with a faithful model of `datetime.strptime(date, "%Y%m")` including its
  greedy regex behaviour and its rejection of invalid months.

Modelling conventions:

* A pandas cell loaded from Excel is a `Val` (string or integer); the row
  table produced by `parse_df` holds only strings, so extracted rows are
  `Row` structures of `String` fields.  `pyStr` models Python `str(...)`
  as applied by `astype(str)`.
* Python string slicing `s[a:b]` (for `0 ≤ a ≤ b`) is `pySlice`: it clamps at
  the end of the string and never fails.  Python `str.strip()` is `pyStrip`
  (ASCII whitespace).
* The dataframe is a `List Row`; the transient `KEY` column added by
  `run_shop_code_transition` is recomputed by `item_key_col` exactly as the
  source recomputes it from the three component columns, and the output of
  the reconciliation carries the base row plus the new "actual shop" value
  (`Row × Val`), reflecting the final `drop(columns=["KEY"])`.
* `pandas.Series.replace(to_replace=list, value=list)` computes its masks
  against the original column, applying pairs in order, so for a duplicated
  `to_replace` key the last pair wins; `replaceList` models this.
-/

/-- A pandas cell value as loaded from a workbook: a string or an integer. -/
inductive Val where
  | str (s : String)
  | int (n : Int)
deriving DecidableEq, Repr

/-- Python `str(...)` as applied by `astype(str)` in `_cast_columns`. -/
def pyStr : Val → Val
  | Val.str s => Val.str s
  | Val.int n => Val.str (toString n)

/-- Python string slice `s[a:b]` for `0 ≤ a ≤ b`: clamps at the end of the
string, yielding a shorter (possibly empty) string instead of failing. -/
def pySlice (s : String) (a b : Nat) : String :=
  String.mk ((s.data.drop a).take (b - a))

/-- Whitespace characters removed by Python `str.strip()` (ASCII subset). -/
def pyIsSpace (c : Char) : Bool :=
  c = ' ' || c = '\t' || c = '\n' || c = '\r' || c = '\x0b' || c = '\x0c'

/-- Python `str.strip()`: remove leading and trailing whitespace. -/
def pyStrip (s : String) : String :=
  String.mk (((s.data.dropWhile pyIsSpace).reverse.dropWhile pyIsSpace).reverse)

/-- The static offset table of `DataframeParser.column_to_str_index_mapping`:
column name together with the slice bounds `[start, end)`. -/
def column_to_str_index_mapping : List (String × Nat × Nat) :=
  [("quote_date", 0, 6),
   ("item_id", 6, 12),
   ("location", 12, 17),
   ("shop_code", 17, 21),
   ("prod_size", 21, 37),
   ("prod_measure_id", 37, 39),
   ("attribute2", 39, 119),
   ("attribute3", 119, 199),
   ("attribute4", 199, 279),
   ("attribute5", 279, 359),
   ("attribute6", 359, 439)]

/-- `DataframeParser.parse_df` applied to a single raw record: for every entry
of the offset table, slice the record at the configured range and strip the
result.  The output lists the `(column, value)` cells of the parsed row. -/
def parse_df (record : String) : List (String × String) :=
  column_to_str_index_mapping.map
    (fun f => (f.1, pyStrip (pySlice record f.2.1 f.2.2)))

/-- A parsed row: the eleven string-valued columns produced by `parse_df`. -/
structure Row where
  quote_date : String
  item_id : String
  location : String
  shop_code : String
  prod_size : String
  prod_measure_id : String
  attribute2 : String
  attribute3 : String
  attribute4 : String
  attribute5 : String
  attribute6 : String
deriving DecidableEq, Repr

/-- `DataframeParser.item_key_col`: the composite key
`shop_code + location + item_id` (string concatenation, no separator). -/
def item_key_col (r : Row) : String :=
  r.shop_code ++ r.location ++ r.item_id

/-- `DataframeParser._drop_duplicates_on_character_len` (with the default
`shop_code_len=4`): mark the rows whose composite key occurs at least twice
(`df.duplicated(subset=KEY, keep=False)`), mark the rows whose `shop_code`
has exactly four characters, and keep a row only when it does not carry both
marks. -/
def _drop_duplicates_on_character_len (rows : List Row) : List Row :=
  let keys := rows.map item_key_col
  let duplicates := keys.map (fun k => decide (2 ≤ keys.count k))
  let shop_code_is_4_chars := rows.map (fun r => decide (r.shop_code.length = 4))
  let mask := List.zipWith (fun d s => !(d && s)) duplicates shop_code_is_4_chars
  ((rows.zip mask).filter (fun p => p.2)).map (fun p => p.1)

/-- The per-row keep-predicate realised by `_drop_duplicates_on_character_len`:
keep a row unless its key occurs at least twice among all the rows and its
`shop_code` is exactly four characters long. -/
def keepRow (rows : List Row) (r : Row) : Bool :=
  !(decide (2 ≤ (rows.map item_key_col).count (item_key_col r)) &&
    decide (r.shop_code.length = 4))

/-- One entry of the transition table: the `KEY` column and the
`Shop Code` column. -/
structure TransEntry where
  KEY : Val
  shopCode : Val
deriving DecidableEq, Repr

/-- `DataframeParser._cast_columns(self.map_from)`: cast the `KEY` column of
the transition table to strings (the row table's `KEY` column already holds
strings, on which `astype(str)` is the identity). -/
def _cast_columns (trans : List TransEntry) : List TransEntry :=
  trans.map (fun e => { KEY := pyStr e.KEY, shopCode := e.shopCode })

/-- `pandas.Series.replace(to_replace=keys, value=values)` on one cell:
the replacement masks are computed against the original cell value and the
pairs are applied in order, so the last pair whose key equals the cell wins;
a cell matching no key is left unchanged. -/
def replaceList (pairs : List (Val × Val)) (v : Val) : Val :=
  match (pairs.filter (fun p => decide (p.1 = v))).getLast? with
  | some p => p.2
  | none => v

/-- `DataframeParser._map_shop_codes`: seed the "actual shop" column with the
`KEY` column, then replace each cell through the transition table's
`(KEY, Shop Code)` pairs. -/
def _map_shop_codes (rows : List Row) (trans : List TransEntry) :
    List (Row × Val) :=
  rows.map (fun r =>
    (r, replaceList (trans.map (fun e => (e.KEY, e.shopCode)))
          (Val.str (item_key_col r))))

/-- `DataframeParser._backfill_unmatched_values`: every row whose
"actual shop" cell is `isin` the (surviving) `KEY` column is overwritten with
its own `shop_code` value. -/
def _backfill_unmatched_values (mapped : List (Row × Val)) : List (Row × Val) :=
  let keyVals := mapped.map (fun p => Val.str (item_key_col p.1))
  mapped.map (fun p =>
    if p.2 ∈ keyVals then (p.1, Val.str p.1.shop_code) else p)

/-- `DataframeParser.run_shop_code_transition`: materialise the `KEY` column,
drop duplicate-key rows with four-character shop codes, cast the transition
table's `KEY` column to strings, map the keys through the transition table,
backfill unmatched cells with the original `shop_code`, and drop the `KEY`
column.  The result pairs each surviving base row with its "actual shop"
value; the second component is the (mutated, string-cast) transition table as
it stands after the pass. -/
def run_shop_code_transition (rows : List Row) (df_transition : List TransEntry) :
    List (Row × Val) × List TransEntry :=
  let survivors := _drop_duplicates_on_character_len rows
  let trans := _cast_columns df_transition
  let mapped := _map_shop_codes survivors trans
  let backfilled := _backfill_unmatched_values mapped
  (backfilled, trans)

/-- The stringified composite keys of the rows surviving duplicate
suppression: the values against which `_backfill_unmatched_values` tests
membership. -/
def survivor_key_vals (rows : List Row) : List Val :=
  (_drop_duplicates_on_character_len rows).map (fun r => Val.str (item_key_col r))

/-- Python `"x".split("_")` on a list of characters: split at every separator,
keeping empty fragments (`"a_b_".split("_") == ["a", "b", ""]`). -/
def splitChar (sep : Char) : List Char → List (List Char)
  | [] => [[]]
  | c :: rest =>
    let r := splitChar sep rest
    if c = sep then [] :: r
    else
      match r with
      | [] => [[c]]
      | h :: t => (c :: h) :: t

/-- `f.stem.split("_")[-1]`: the final underscore-separated token of a file
stem. -/
def lastToken (stem : String) : String :=
  String.mk ((splitChar '_' stem.data).getLastD [])

/-- Numeric value of a list of decimal digit characters. -/
def digitsToNat (l : List Char) : Nat :=
  l.foldl (fun acc c => acc * 10 + (c.toNat - '0'.toNat)) 0

/-- `datetime.strptime(s, "%Y%m")`, returning `some (year, month)` on success.
CPython's `_strptime` compiles the format to the regex
`(?P<Y>\d\d\d\d)(?P<m>1[0-2]|0[1-9]|[1-9])` — `%Y` is exactly four digits and
`%m` is one or two digits already constrained to a valid month — matches it
against a prefix of `s`, and raises `ValueError` (modelled as `none`) if the
regex fails, if unconverted data remains, or if the year is below
`datetime.MINYEAR = 1`.  Hence exactly the all-digit strings of length 5 or 6
whose first four digits form a positive year and whose remaining one or two
digits read as a month in `1..12` succeed: with one leftover digit `%m` must
match `[1-9]`, and with two leftover digits `%m` must consume both (reading
`01`-`09` or `10`-`12`), since a partial one-digit match leaves unconverted
data. -/
def strptime_Ym (s : String) : Option (Nat × Nat) :=
  let l := s.data
  if (∀ c ∈ l, c.isDigit) ∧ (l.length = 5 ∨ l.length = 6) then
    let y := digitsToNat (l.take 4)
    let m := digitsToNat (l.drop 4)
    if 1 ≤ y ∧ 1 ≤ m ∧ m ≤ 12 then some (y, m) else none
  else none

/-- Comparison of the `datetime` values built by `strptime_Ym` (both carry
day 1, so the order is lexicographic on year then month). -/
def dateLe (a b : Nat × Nat) : Prop :=
  a.1 < b.1 ∨ (a.1 = b.1 ∧ a.2 ≤ b.2)

instance (a b : Nat × Nat) : Decidable (dateLe a b) := by
  unfold dateLe; infer_instance

/-- `find_files`: scan the glob-matched candidate stems in order, parse the
final underscore token of each as `%Y%m`, silently skip the ones that fail to
parse, and keep those whose date lies in the inclusive range
`[date_start, date_stop]`. -/
def find_files (stems : List String) (date_start date_stop : Nat × Nat) :
    List String :=
  match stems with
  | [] => []
  | f :: rest =>
    match strptime_Ym (lastToken f) with
    | none => find_files rest date_start date_stop
    | some d =>
      if dateLe date_start d ∧ dateLe d date_stop then
        f :: find_files rest date_start date_stop
      else
        find_files rest date_start date_stop

/-- The spec's unmatched-row example: `shop_code="ZZZZ"`, `location="0001"`,
`item_id="9"`, composite key `"ZZZZ00019"`. -/
def rowZ : Row :=
  { quote_date := "", item_id := "9", location := "0001", shop_code := "ZZZZ",
    prod_size := "", prod_measure_id := "", attribute2 := "", attribute3 := "",
    attribute4 := "", attribute5 := "", attribute6 := "" }

/-- The spec's matched-row example: `shop_code="A12X"`, `location="1005"`,
degenerate `item_id=""`, composite key `"A12X1005"`. -/
def rowA : Row :=
  { quote_date := "", item_id := "", location := "1005", shop_code := "A12X",
    prod_size := "", prod_measure_id := "", attribute2 := "", attribute3 := "",
    attribute4 := "", attribute5 := "", attribute6 := "" }

/-- A row whose composite key is just its own shop code `"007"` (empty
`location` and `item_id`). -/
def rowB : Row :=
  { quote_date := "", item_id := "", location := "", shop_code := "007",
    prod_size := "", prod_measure_id := "", attribute2 := "", attribute3 := "",
    attribute4 := "", attribute5 := "", attribute6 := "" }

/-- The spec's example transition table: `("A12X1005", "007")`. -/
def transA : List TransEntry := [{ KEY := Val.str "A12X1005", shopCode := Val.str "007" }]

/-- A transition table whose `KEY` column already holds strings. -/
def transK : List TransEntry := [{ KEY := Val.str "K", shopCode := Val.str "S" }]

/-- A record of length 439, the maximum end offset of the field table. -/
def rec439 : String := String.mk (List.replicate 439 'a')

lemma data_length (s : String) : s.data.length = s.length := rfl

lemma pySlice_length (s : String) (a b : Nat) :
    (pySlice s a b).length = min (b - a) (s.length - a) := by
  simp [pySlice]

lemma pySlice_getElem (s : String) (a b j : Nat) (hj : j < b - a) :
    (pySlice s a b).data[j]? = s.data[a + j]? := by
  show ((s.data.drop a).take (b - a))[j]? = s.data[a + j]?
  rw [List.getElem?_take_of_lt hj, List.getElem?_drop]

lemma pyStrip_length_le (s : String) : (pyStrip s).length ≤ s.length := by
  show (((s.data.dropWhile pyIsSpace).reverse.dropWhile pyIsSpace).reverse).length ≤ _
  rw [List.length_reverse]
  calc ((s.data.dropWhile pyIsSpace).reverse.dropWhile pyIsSpace).length
      ≤ (s.data.dropWhile pyIsSpace).reverse.length :=
        (List.dropWhile_sublist _).length_le
    _ = (s.data.dropWhile pyIsSpace).length := List.length_reverse _
    _ ≤ s.data.length := (List.dropWhile_sublist _).length_le
    _ = s.length := rfl

lemma pyStrip_eq_of_length (s : String) (h : (pyStrip s).length = s.length) :
    pyStrip s = s := by
  have h1 : ((s.data.dropWhile pyIsSpace).reverse.dropWhile pyIsSpace).length
      = s.data.length := by
    rw [data_length]
    simpa [pyStrip] using h
  have hle : (s.data.dropWhile pyIsSpace).length ≤ s.data.length :=
    (List.dropWhile_sublist _).length_le
  have hle2 : ((s.data.dropWhile pyIsSpace).reverse.dropWhile pyIsSpace).length
      ≤ (s.data.dropWhile pyIsSpace).reverse.length :=
    (List.dropWhile_sublist _).length_le
  rw [List.length_reverse] at hle2
  have hdrop1 : s.data.dropWhile pyIsSpace = s.data := by
    refine (List.dropWhile_sublist _).eq_of_length ?_
    omega
  have hdrop2 : (s.data.dropWhile pyIsSpace).reverse.dropWhile pyIsSpace
      = (s.data.dropWhile pyIsSpace).reverse := by
    refine (List.dropWhile_sublist _).eq_of_length ?_
    rw [List.length_reverse]
    omega
  show String.mk _ = s
  rw [hdrop2, hdrop1, List.reverse_reverse]

lemma zipWith_map_same {α γ δ μ : Type} (f : γ → δ → μ) (g : α → γ) (h : α → δ)
    (l : List α) :
    List.zipWith f (l.map g) (l.map h) = l.map (fun a => f (g a) (h a)) := by
  induction l with
  | nil => rfl
  | cons a l ih => simp [ih]

lemma zip_mask_filter {α : Type} (l : List α) (p : α → Bool) :
    (((l.zip (l.map p)).filter (fun q => q.2)).map (fun q => q.1)) = l.filter p := by
  induction l with
  | nil => rfl
  | cons a l ih =>
    cases hpa : p a <;> simp [List.filter_cons, hpa, ih]

lemma drop_eq_filter (rows : List Row) :
    _drop_duplicates_on_character_len rows = rows.filter (keepRow rows) := by
  show (((rows.zip _).filter _).map _) = _
  rw [List.map_map, zipWith_map_same, zip_mask_filter]
  rfl

lemma keepRow_iff (rows : List Row) (r : Row) :
    keepRow rows r = true ↔
      ¬(2 ≤ (rows.map item_key_col).count (item_key_col r) ∧
        r.shop_code.length = 4) := by
  simp only [keepRow, Bool.not_eq_true', Bool.and_eq_false_iff,
    decide_eq_false_iff_not]
  omega

lemma drop_idem (rows : List Row) :
    _drop_duplicates_on_character_len (_drop_duplicates_on_character_len rows)
      = _drop_duplicates_on_character_len rows := by
  conv_lhs => rw [drop_eq_filter]
  rw [List.filter_eq_self]
  intro r hr
  have hkeep : keepRow rows r = true := by
    rw [drop_eq_filter] at hr
    exact (List.mem_filter.mp hr).2
  have hsub : List.Sublist ((_drop_duplicates_on_character_len rows).map item_key_col)
      (rows.map item_key_col) := by
    rw [drop_eq_filter]
    exact (List.filter_sublist _).map _
  rw [keepRow_iff] at hkeep ⊢
  rintro ⟨h2, h4⟩
  exact hkeep ⟨le_trans h2 (hsub.count_le _), h4⟩

lemma pyStr_idem (v : Val) : pyStr (pyStr v) = pyStr v := by
  cases v <;> rfl

lemma cast_idem (trans : List TransEntry) :
    _cast_columns (_cast_columns trans) = _cast_columns trans := by
  simp [_cast_columns, List.map_map, Function.comp, pyStr_idem]

lemma backfill_fst (m : List (Row × Val)) :
    (_backfill_unmatched_values m).map Prod.fst = m.map Prod.fst := by
  simp only [_backfill_unmatched_values, List.map_map]
  refine List.map_congr_left ?_
  intro p _
  simp only [Function.comp]
  split <;> rfl

lemma mapShop_fst (rows : List Row) (trans : List TransEntry) :
    (_map_shop_codes rows trans).map Prod.fst = rows := by
  simp only [_map_shop_codes, List.map_map]
  exact (List.map_congr_left (fun r _ => rfl)).trans (List.map_id _)

lemma run_fst (rows : List Row) (trans : List TransEntry) :
    (run_shop_code_transition rows trans).1.map Prod.fst
      = _drop_duplicates_on_character_len rows := by
  show (_backfill_unmatched_values
      (_map_shop_codes (_drop_duplicates_on_character_len rows)
        (_cast_columns trans))).map Prod.fst = _
  rw [backfill_fst, mapShop_fst]

lemma run_out_eq (rows : List Row) (trans : List TransEntry) :
    (run_shop_code_transition rows trans).1 =
      (_drop_duplicates_on_character_len rows).map (fun r =>
        if replaceList ((_cast_columns trans).map (fun e => (e.KEY, e.shopCode)))
            (Val.str (item_key_col r)) ∈ survivor_key_vals rows then
          (r, Val.str r.shop_code)
        else
          (r, replaceList ((_cast_columns trans).map (fun e => (e.KEY, e.shopCode)))
            (Val.str (item_key_col r)))) := by
  show _backfill_unmatched_values
      (_map_shop_codes (_drop_duplicates_on_character_len rows)
        (_cast_columns trans)) = _
  simp only [_backfill_unmatched_values, _map_shop_codes, List.map_map]
  refine List.map_congr_left ?_
  intro r _
  simp only [Function.comp]
  rfl

lemma mapping_bounds :
    ∀ e ∈ column_to_str_index_mapping, e.2.1 ≤ e.2.2 ∧ e.2.2 ≤ 439 := by decide

/-- C4: for every record of length at least 439 (the maximum end offset),
extraction produces exactly the 11 fields of the offset table, and each
field's value is the whitespace-trimmed exact substring `record[start:end]`:
the raw slice has full length `end - start` and its `j`-th character is the
record's character at position `start + j`. -/
theorem parse_df_long_record_exact (rec : String) (h : 439 ≤ rec.length) :
    (parse_df rec).length = 11 ∧
    ∀ e ∈ column_to_str_index_mapping,
      (e.1, pyStrip (pySlice rec e.2.1 e.2.2)) ∈ parse_df rec ∧
      (pySlice rec e.2.1 e.2.2).length = e.2.2 - e.2.1 ∧
      ∀ j, j < e.2.2 - e.2.1 →
        (pySlice rec e.2.1 e.2.2).data[j]? = rec.data[e.2.1 + j]? := by
  refine ⟨rfl, ?_⟩
  intro e he
  refine ⟨List.mem_map_of_mem _ he, ?_, fun j hj => pySlice_getElem rec _ _ j hj⟩
  have hb := mapping_bounds e he
  rw [pySlice_length]
  omega

/-- Witness for `parse_df_long_record_exact` at a concrete record of
length 439. -/
theorem parse_df_long_record_exact_witness : (parse_df rec439).length = 11 :=
  (parse_df_long_record_exact rec439
    (by show 439 ≤ (List.replicate 439 'a').length
        rw [List.length_replicate])).1

/-- C5: for every record strictly shorter than the last end offset 439,
extraction still yields all 11 fields and never fails: a field whose range
reaches past the end of the record contracts to the available suffix of the
record (everything from its start offset), and a field starting at or past
the end of the record yields the empty slice. -/
theorem parse_df_short_record_truncates (rec : String) (h : rec.length < 439) :
    (parse_df rec).length = 11 ∧
    ∀ e ∈ column_to_str_index_mapping,
      (e.1, pyStrip (pySlice rec e.2.1 e.2.2)) ∈ parse_df rec ∧
      (rec.length ≤ e.2.2 → (pySlice rec e.2.1 e.2.2).data = rec.data.drop e.2.1) ∧
      (rec.length ≤ e.2.1 → pySlice rec e.2.1 e.2.2 = "") := by
  refine ⟨rfl, ?_⟩
  intro e he
  refine ⟨List.mem_map_of_mem _ he, ?_, ?_⟩
  · intro hb
    show (rec.data.drop e.2.1).take (e.2.2 - e.2.1) = rec.data.drop e.2.1
    apply List.take_of_length_le
    rw [List.length_drop, data_length]
    omega
  · intro ha
    show String.mk ((rec.data.drop e.2.1).take (e.2.2 - e.2.1)) = ""
    have hnil : rec.data.drop e.2.1 = [] := by
      apply List.drop_eq_nil_of_le
      rw [data_length]
      exact ha
    rw [hnil, List.take_nil]

/-- Witness for `parse_df_short_record_truncates` at the empty record. -/
theorem parse_df_short_record_truncates_witness : (parse_df "").length = 11 :=
  (parse_df_short_record_truncates "" (by decide)).1

/-- C10: every extracted (trimmed) field value has length at most
`end - start` for its configured range; in particular the `shop_code` value
(range `[17, 21)`) has at most 4 characters, and when it has exactly 4 the
raw slice was already fully populated with no surrounding whitespace. -/
theorem parse_df_field_length_bound (rec : String) :
    (∀ e ∈ column_to_str_index_mapping,
      (e.1, pyStrip (pySlice rec e.2.1 e.2.2)) ∈ parse_df rec ∧
      (pyStrip (pySlice rec e.2.1 e.2.2)).length ≤ e.2.2 - e.2.1) ∧
    (pyStrip (pySlice rec 17 21)).length ≤ 4 ∧
    ((pyStrip (pySlice rec 17 21)).length = 4 →
      pyStrip (pySlice rec 17 21) = pySlice rec 17 21) := by
  have hb : ∀ a b : Nat, (pyStrip (pySlice rec a b)).length ≤ b - a := by
    intro a b
    refine le_trans (pyStrip_length_le _) ?_
    rw [pySlice_length]
    omega
  refine ⟨fun e he => ⟨List.mem_map_of_mem _ he, hb _ _⟩, ?_, ?_⟩
  · simpa using hb 17 21
  · intro h4
    have h1 : (pySlice rec 17 21).length ≤ 4 := by
      rw [pySlice_length]
      omega
    have h2 : (pyStrip (pySlice rec 17 21)).length ≤ (pySlice rec 17 21).length :=
      pyStrip_length_le _
    exact pyStrip_eq_of_length _ (by omega)

/-- Witness for `parse_df_field_length_bound`: the `shop_code` bound at a
concrete record. -/
theorem parse_df_field_length_bound_witness :
    (pyStrip (pySlice "202107000123000010SHOP  rest" 17 21)).length ≤ 4 :=
  (parse_df_field_length_bound "202107000123000010SHOP  rest").2.1

/-- C3: duplicate suppression drops a row precisely when its composite key
occurs at least twice in the row table and its `shop_code` has exactly 4
characters; every occurrence of such a row is dropped, and every other row
keeps its full multiplicity. -/
theorem drop_duplicates_count_characterisation (rows : List Row) (r : Row) :
    (_drop_duplicates_on_character_len rows).count r =
      if 2 ≤ (rows.map item_key_col).count (item_key_col r) ∧
          r.shop_code.length = 4 then 0
      else rows.count r := by
  rw [drop_eq_filter]
  by_cases h : 2 ≤ (rows.map item_key_col).count (item_key_col r) ∧
      r.shop_code.length = 4
  · rw [if_pos h, List.count_eq_zero]
    intro hmem
    have hk := (List.mem_filter.mp hmem).2
    rw [keepRow_iff] at hk
    exact hk h
  · rw [if_neg h]
    exact List.count_filter ((keepRow_iff rows r).mpr h)

/-- C6: re-running the reconciliation on its own output (the surviving base
rows, with the transient KEY column absent, against the transition table as
the first pass left it) reproduces the first pass's output exactly; in
particular every row's "actual shop" value is unchanged. -/
theorem run_shop_code_transition_idempotent (rows : List Row)
    (trans : List TransEntry) :
    run_shop_code_transition
        ((run_shop_code_transition rows trans).1.map Prod.fst)
        (run_shop_code_transition rows trans).2
      = run_shop_code_transition rows trans := by
  rw [run_fst]
  have h2 : (run_shop_code_transition rows trans).2 = _cast_columns trans := rfl
  rw [h2]
  show (_backfill_unmatched_values
      (_map_shop_codes
        (_drop_duplicates_on_character_len (_drop_duplicates_on_character_len rows))
        (_cast_columns (_cast_columns trans))),
      _cast_columns (_cast_columns trans))
    = run_shop_code_transition rows trans
  rw [drop_idem, cast_idem]
  rfl

/-- C7: reconciliation leaves every surviving row's extracted fields
unchanged and in their original relative order — the base rows of the output
are exactly the input rows surviving duplicate suppression, in input order —
while the output carries only the added "actual shop" value alongside each
base row (the transient KEY column is dropped). -/
theorem run_shop_code_transition_preserves_rows (rows : List Row)
    (trans : List TransEntry) :
    (run_shop_code_transition rows trans).1.map Prod.fst
      = rows.filter (keepRow rows) := by
  rw [run_fst, drop_eq_filter]

/-- C8 (amended): a reconciliation pass rewrites the transition table to its
string-cast image: the Shop Code column is untouched, but every KEY cell is
replaced by `str(...)` of itself, so the table as a whole is preserved only
when its KEY column already holds strings. -/
theorem run_shop_code_transition_transition_table_cast (rows : List Row)
    (trans : List TransEntry) :
    (run_shop_code_transition rows trans).2 = _cast_columns trans ∧
    (run_shop_code_transition rows trans).2.map TransEntry.shopCode
      = trans.map TransEntry.shopCode ∧
    ((∀ e ∈ trans, pyStr e.KEY = e.KEY) →
      (run_shop_code_transition rows trans).2 = trans) := by
  refine ⟨rfl, ?_, ?_⟩
  · show (_cast_columns trans).map TransEntry.shopCode = _
    simp only [_cast_columns, List.map_map]
    exact List.map_congr_left (fun e _ => rfl)
  · intro h
    show _cast_columns trans = trans
    simp only [_cast_columns]
    refine (List.map_congr_left ?_).trans (List.map_id _)
    intro e he
    show ({ KEY := pyStr e.KEY, shopCode := e.shopCode } : TransEntry) = id e
    rw [h e he]
    rfl

/-- Witness for `run_shop_code_transition_transition_table_cast`: on a
transition table whose KEY column is already strings, the pass returns the
table unchanged. -/
theorem run_shop_code_transition_transition_table_cast_witness :
    (run_shop_code_transition [] transK).2 = transK :=
  (run_shop_code_transition_transition_table_cast [] transK).2.2 (by decide)

/-- Counterexample to C8 as stated: with an integer KEY cell `5`, the pass
replaces it by the string `"5"`, so the transition table's KEY column does
not hold the same values after `run_shop_code_transition` as before. -/
theorem run_shop_code_transition_mutates_transition_table :
    (run_shop_code_transition [] [{ KEY := Val.int 5, shopCode := Val.str "007" }]).2
      ≠ [{ KEY := Val.int 5, shopCode := Val.str "007" }] := by decide

/-- C1 (amended): every surviving row whose stringified composite key is
absent from the (string-cast) transition-table KEY column ends with its own
`shop_code` as "actual shop"; moreover every output "actual shop" value is
either the row's own `shop_code` or a value distinct from every surviving
composite key — so a never-replaced raw key can appear as a final value only
when it coincides with the row's own `shop_code`. -/
theorem run_shop_code_transition_fallback_or_fresh (rows : List Row)
    (trans : List TransEntry) :
    ∀ p ∈ (run_shop_code_transition rows trans).1,
      (Val.str (item_key_col p.1) ∉ (_cast_columns trans).map TransEntry.KEY →
        p.2 = Val.str p.1.shop_code) ∧
      (p.2 = Val.str p.1.shop_code ∨ p.2 ∉ survivor_key_vals rows) := by
  intro p hp
  rw [run_out_eq] at hp
  obtain ⟨r, hr, rfl⟩ := List.mem_map.mp hp
  by_cases hc : replaceList ((_cast_columns trans).map (fun e => (e.KEY, e.shopCode)))
      (Val.str (item_key_col r)) ∈ survivor_key_vals rows
  · rw [if_pos hc]
    exact ⟨fun _ => rfl, Or.inl rfl⟩
  · rw [if_neg hc]
    constructor
    · intro hnotin
      exfalso
      have hfil : ((_cast_columns trans).map (fun e => (e.KEY, e.shopCode))).filter
          (fun q => decide (q.1 = Val.str (item_key_col r))) = [] := by
        rw [List.filter_eq_nil_iff]
        intro q hq
        obtain ⟨e, he, rfl⟩ := List.mem_map.mp hq
        simp only [decide_eq_true_eq]
        intro heq
        exact hnotin (heq ▸ List.mem_map_of_mem TransEntry.KEY he)
      have hm : replaceList ((_cast_columns trans).map (fun e => (e.KEY, e.shopCode)))
          (Val.str (item_key_col r)) = Val.str (item_key_col r) := by
        rw [replaceList, hfil]
        rfl
      rw [hm] at hc
      exact hc (List.mem_map_of_mem _ hr)
    · exact Or.inr hc

/-- Witness for `run_shop_code_transition_fallback_or_fresh`: the spec's
unmatched example row with composite key `"ZZZZ00019"` and an empty
transition table ends with `"actual shop" = "ZZZZ"`, its own shop code. -/
theorem run_shop_code_transition_fallback_or_fresh_witness :
    ((rowZ, Val.str "ZZZZ") : Row × Val).2 = Val.str rowZ.shop_code :=
  (run_shop_code_transition_fallback_or_fresh [rowZ] [] (rowZ, Val.str "ZZZZ")
    (by decide)).1 (by decide)

/-- Counterexample to C1's second conjunct as stated: for the row with
`shop_code="007"` and empty `location`/`item_id`, the composite key `"007"`
is never replaced (the transition table is empty), yet the row's final
"actual shop" value is exactly that raw, never-replaced composite key. -/
theorem run_shop_code_transition_raw_key_persists :
    (run_shop_code_transition [rowB] []).1
      = [(rowB, Val.str (item_key_col rowB))] ∧
    Val.str (item_key_col rowB) ∈ survivor_key_vals [rowB] ∧
    (_cast_columns []).map TransEntry.KEY = [] := by decide

/-- C2 (amended): a surviving row whose stringified composite key occurs in
the (string-cast) transition table, paired there with the single Shop Code
value `v`, receives `v` as its final "actual shop" — provided `v` does not
itself occur among the surviving rows' composite keys, in which case the
backfill step would overwrite it with the row's own `shop_code`. -/
theorem run_shop_code_transition_matched_value (rows : List Row)
    (trans : List TransEntry) :
    ∀ p ∈ (run_shop_code_transition rows trans).1, ∀ v : Val,
      ((_cast_columns trans).filter
          (fun e => decide (e.KEY = Val.str (item_key_col p.1)))).map
          TransEntry.shopCode = [v] →
      v ∉ survivor_key_vals rows →
      p.2 = v := by
  intro p hp v hv hnot
  rw [run_out_eq] at hp
  obtain ⟨r, hr, hpe⟩ := List.mem_map.mp hp
  have hp1 : p.1 = r := by
    rw [← hpe]
    split <;> rfl
  rw [hp1] at hv
  have hfilter : ((_cast_columns trans).map (fun e => (e.KEY, e.shopCode))).filter
      (fun q => decide (q.1 = Val.str (item_key_col r)))
      = ((_cast_columns trans).filter
          (fun e => decide (e.KEY = Val.str (item_key_col r)))).map
          (fun e => (e.KEY, e.shopCode)) := by
    rw [List.filter_map]
    rfl
  cases hTf : (_cast_columns trans).filter
      (fun e => decide (e.KEY = Val.str (item_key_col r))) with
  | nil =>
    rw [hTf] at hv
    simp at hv
  | cons e tail =>
    rw [hTf] at hv
    simp only [List.map_cons, List.cons.injEq] at hv
    obtain ⟨hv1, hv2⟩ := hv
    have htail : tail = [] := List.map_eq_nil_iff.mp hv2
    have hm : replaceList ((_cast_columns trans).map (fun e => (e.KEY, e.shopCode)))
        (Val.str (item_key_col r)) = v := by
      rw [replaceList, hfilter, hTf, htail]
      simp [hv1]
    rw [← hpe, hm, if_neg hnot]

/-- Witness for `run_shop_code_transition_matched_value`: the spec's example
row with key `"A12X1005"` against the transition table `("A12X1005", "007")`
receives `"007"`. -/
theorem run_shop_code_transition_matched_value_witness :
    ((rowA, Val.str "007") : Row × Val).2 = Val.str "007" :=
  run_shop_code_transition_matched_value [rowA] transA (rowA, Val.str "007")
    (by decide) (Val.str "007") (by decide) (by decide)

/-- Counterexample to C2 as stated: `rowA`'s key `"A12X1005"` occurs in the
transition table paired with `"007"`, yet because `"007"` is also `rowB`'s
composite key, the backfill step overwrites the match and `rowA` ends with
`"A12X"` (its own shop code) instead of the paired value `"007"`. -/
theorem run_shop_code_transition_matched_value_overwritten :
    (run_shop_code_transition [rowA, rowB] transA).1
      = [(rowA, Val.str "A12X"), (rowB, Val.str "007")] ∧
    item_key_col rowA = "A12X1005" ∧
    transA = [{ KEY := Val.str "A12X1005", shopCode := Val.str "007" }] ∧
    Val.str "A12X" ≠ Val.str "007" := by decide

/-- C9: `find_files` returns exactly the candidate stems whose final
underscore-separated token parses under `%Y%m` to a date inside the inclusive
range; a stem whose token fails to parse — such as one ending `_202013`,
month 13 — is silently excluded for every choice of bounds. -/
theorem find_files_filters_by_parsed_date (stems : List String)
    (a b : Nat × Nat) :
    find_files stems a b = stems.filter (fun f =>
        match strptime_Ym (lastToken f) with
        | none => false
        | some d => decide (dateLe a d ∧ dateLe d b)) ∧
    strptime_Ym "202013" = none ∧
    lastToken "Product_descriptions_202013" = "202013" ∧
    ∀ a' b' : Nat × Nat, find_files ["Product_descriptions_202013"] a' b' = [] := by
  refine ⟨?_, by decide, by decide, ?_⟩
  · induction stems with
    | nil => rfl
    | cons f rest ih =>
      rw [List.filter_cons]
      cases hs : strptime_Ym (lastToken f) with
      | none => simp [find_files, hs, ih]
      | some d =>
        by_cases hd : dateLe a d ∧ dateLe d b
        · simp [find_files, hs, hd, ih]
        · simp [find_files, hs, hd, ih]
  · intro a' b'
    have hnone : strptime_Ym (lastToken "Product_descriptions_202013") = none := by
      decide
    simp [find_files, hnone]
